import Mathlib

/-!
Verification of the InfiniteCanvasBackend session-synchronization core.

The repository contains two server implementations of the same collaborative
whiteboard core:

* `src/index.ts` — the room model: an Express/Socket.IO server with a map of
  rooms, each holding a user map, an opaque canvas-snapshot element list and a
  last-update timestamp (snapshot-replace object-store model, capacity 10).
* `src/src/whiteboard/whiteboard.gateway.ts` — the NestJS gateway: one implicit
  global session with a keyed object store `Record<string, WhiteboardObject>`
  and shallow-merge modification semantics.

JavaScript `Map`s and plain objects are embedded as insertion-ordered
association lists with string keys: `Map.set` / property assignment updates an
existing key in place (keeping its position) and appends a fresh key at the
end, which is exactly JavaScript's enumeration-order behaviour.  Broadcasts
(`client.broadcast.emit`, `socket.to(room).emit`) and direct replies
(`socket.emit` / `client.emit`) are modelled as explicit message lists
returned by each handler.
-/

/-- Association-list lookup: the value at the first entry whose key matches,
mirroring JavaScript `Map.get` / property access (keys are unique in the
stores the handlers build, so "first" is "the" entry). -/
def alookup {α : Type} : List (String × α) → String → Option α
  | [], _ => none
  | (k, v) :: rest, k' => if k = k' then some v else alookup rest k'

/-- `Map.set` / JS property assignment: update an existing key in place
(keeping its insertion position), otherwise append the new entry. -/
def mapSet {α : Type} : List (String × α) → String → α → List (String × α)
  | [], k, v => [(k, v)]
  | (k', v') :: rest, k, v =>
      if k' = k then (k, v) :: rest else (k', v') :: mapSet rest k v

/-- `Map.delete` / JS `delete obj[k]`: drop the entry with key `k`. -/
def mapDelete {α : Type} (m : List (String × α)) (k : String) :
    List (String × α) :=
  m.filter (fun p => p.1 ≠ k)

/-- The values of the map in insertion order: `Array.from(m.values())` /
`Object.values(obj)`. -/
def mapValues {α : Type} (m : List (String × α)) : List α :=
  m.map Prod.snd

/-! ## The keyed object-merge model

Embedding of `src/src/whiteboard/whiteboard.gateway.ts`: a single implicit
global session whose state is `private objects: Record<string, WhiteboardObject>`.
A `WhiteboardObject` is `{ id: string; props: Record<string, unknown> }`; the
open-ended `props` values are opaque to the gateway, so they are embedded as
strings.  Each handler logs to the `EventLogService`, may mutate the store,
and may emit to the requesting client (`client.emit`) or to everyone else
(`client.broadcast.emit`); the result record captures all four effects. -/

/-- `WhiteboardObject` from `whiteboard.gateway.ts`. -/
structure WhiteboardObject where
  id : String
  props : List (String × String)
deriving DecidableEq

/-- Messages the gateway emits over the socket. -/
inductive WbMsg where
  | objectAdded (data : WhiteboardObject)
  | objectModified (data : WhiteboardObject)
  | objectRemoved (data : WhiteboardObject)
  | canvasClear
  | objectSync (objs : List WhiteboardObject)
deriving DecidableEq

/-- Effect of one gateway handler: the new object store, the messages sent
to the requesting client only, the messages broadcast to all other clients,
and the event names recorded in the event log. -/
structure WbResult where
  objects : List (String × WhiteboardObject)
  toClient : List WbMsg
  broadcasts : List WbMsg
  logs : List String
deriving DecidableEq

/-- JavaScript object spread `{...old, ...patch}` on the `props` records:
entries of `patch` are written over `old` left to right, keeping the position
of overwritten keys and appending fresh keys. -/
def mergeProps (old patch : List (String × String)) : List (String × String) :=
  patch.foldl (fun acc kv => mapSet acc kv.1 kv.2) old

/-- `handleConnection`: log, then emit the full store to the new client only
(`client.emit('object:sync', { objects: Object.values(this.objects) })`). -/
def handleConnection (objects : List (String × WhiteboardObject))
    (clientId : String) : WbResult :=
  { objects := objects
    toClient := [.objectSync (mapValues objects)]
    broadcasts := []
    logs := ["client:connected", "client:syncing"] }

/-- `handleObjectAdded`: `this.objects[data.id] = data`, then broadcast the
payload verbatim to the other clients. -/
def handleObjectAdded (objects : List (String × WhiteboardObject))
    (data : WhiteboardObject) : WbResult :=
  { objects := mapSet objects data.id data
    toClient := []
    broadcasts := [.objectAdded data]
    logs := ["object:added"] }

/-- `handleObjectModified`: the event is logged unconditionally; if
`this.objects[data.id]` exists, its `props` are shallow-merged with
`data.props` via object spread and the payload is broadcast, otherwise
nothing further happens. -/
def handleObjectModified (objects : List (String × WhiteboardObject))
    (data : WhiteboardObject) : WbResult :=
  match alookup objects data.id with
  | some old =>
      { objects := mapSet objects data.id
          { old with props := mergeProps old.props data.props }
        toClient := []
        broadcasts := [.objectModified data]
        logs := ["object:modified"] }
  | none =>
      { objects := objects
        toClient := []
        broadcasts := []
        logs := ["object:modified"] }

/-- `handleObjectRemoved`: `delete this.objects[data.id]` and broadcast the
payload — the broadcast is unconditional, it happens whether or not the id
was present. -/
def handleObjectRemoved (objects : List (String × WhiteboardObject))
    (data : WhiteboardObject) : WbResult :=
  { objects := mapDelete objects data.id
    toClient := []
    broadcasts := [.objectRemoved data]
    logs := ["object:removed"] }

/-- `handleCanvasClear`: `this.objects = {}` and broadcast `canvas:clear`. -/
def handleCanvasClear (objects : List (String × WhiteboardObject)) : WbResult :=
  { objects := []
    toClient := []
    broadcasts := [.canvasClear]
    logs := ["canvas:clear"] }

/-! ## The room model

Embedding of `src/index.ts`: a map of rooms keyed by a six-character room id,
each room holding a user map keyed by socket id, an opaque canvas-snapshot
element list (`canvasState: any[]`, embedded as opaque strings) and a
`lastUpdate` timestamp.  Each socket handler receives the current room map
and the sender's socket id and returns the new room map together with the
emitted messages: `socket.emit` becomes `Out.toSender`, and
`socket.to(roomId).emit` (everyone in the room except the sender) becomes
`Out.toRoom`. -/

/-- Opaque canvas element (`any` in `canvas_update`'s payload). -/
abbrev Elem := String

/-- The `User` interface of `index.ts`. -/
structure User where
  id : String
  name : String
  color : String
  cursor : Option (Int × Int)
  isDrawing : Bool
deriving DecidableEq

/-- The `Room` interface of `index.ts`. -/
structure Room where
  id : String
  users : List (String × User)
  canvasState : List Elem
  lastUpdate : Int
deriving DecidableEq

/-- The global `rooms = new Map<string, Room>()`. -/
abbrev ServerState := List (String × Room)

/-- The fixed `userColors` palette of eight colors. -/
def userColors : List String :=
  ["#FF6B6B", "#4ECDC4", "#45B7D1", "#96CEB4",
   "#FFEAA7", "#DDA0DD", "#98D8E8", "#F7DC6F"]

/-- `Array.from(room.users.values()).map(user => user.color)`. -/
def usedColors (room : Room) : List String :=
  (mapValues room.users).map User.color

/-- `getAvailableColor`: the first palette entry not currently in use,
falling back to `userColors[0]` when every palette color is in use. -/
def getAvailableColor (room : Room) : String :=
  match userColors.find? (fun c => decide (c ∉ usedColors room)) with
  | some c => c
  | none => userColors.headD ""

/-- Messages the server emits over the socket. -/
inductive Msg where
  | roomCreated (roomId : String) (user : User)
  | roomError (err : String)
  | roomJoined (roomId : String) (user : User) (users : List User)
      (canvasState : List Elem)
  | userJoined (user : User)
  | canvasUpdated (elements : List Elem) (userId : String) (timestamp : Int)
  | cursorUpdated (userId : String) (cursor : Option (Int × Int))
      (color : String) (name : String) (isDrawing : Bool)
  | userDrawingStart (userId : String) (color : String) (name : String)
  | userDrawingEnd (userId : String)
  | syncResponse (canvasState : List Elem) (timestamp : Int)
      (users : List User)
  | userLeft (userId : String) (name : Option String)
deriving DecidableEq

/-- Routing of an emitted message: `socket.emit` replies to the sender only;
`socket.to(roomId).emit` reaches everyone in the room except the sender. -/
inductive Out where
  | toSender (m : Msg)
  | toRoom (roomId : String) (m : Msg)
deriving DecidableEq

/-- The `create_room` handler.  The source draws random ids and retries while
`rooms.has(roomId)`; the chosen id is therefore always fresh, which is
embedded by passing the candidate id explicitly and treating a colliding id
as never chosen (guard branch).  `now` stands for `Date.now()`. -/
def create_room (st : ServerState) (sid username roomId : String)
    (now : Int) : ServerState × List Out :=
  if (alookup st roomId).isSome then (st, [])
  else
    let room0 : Room :=
      { id := roomId, users := [], canvasState := [], lastUpdate := now }
    let user : User :=
      { id := sid, name := username, color := getAvailableColor room0,
        cursor := none, isDrawing := false }
    let room : Room := { room0 with users := mapSet room0.users sid user }
    (mapSet st roomId room, [.toSender (.roomCreated roomId user)])

/-- The `join_room` handler: not-found and room-full error replies to the
sender, otherwise add the user, reply to the sender with the full room state
and notify the others. -/
def join_room (st : ServerState) (sid roomId username : String) :
    ServerState × List Out :=
  match alookup st roomId with
  | none => (st, [.toSender (.roomError "Room not found")])
  | some room =>
    if room.users.length ≥ 10 then
      (st, [.toSender (.roomError "Room is full")])
    else
      let user : User :=
        { id := sid, name := username, color := getAvailableColor room,
          cursor := none, isDrawing := false }
      let room' : Room := { room with users := mapSet room.users sid user }
      (mapSet st roomId room',
       [.toSender (.roomJoined roomId user (mapValues room'.users)
          room.canvasState),
        .toRoom roomId (.userJoined user)])

/-- The `canvas_update` handler: if the room exists, unconditionally
overwrite `canvasState` and `lastUpdate` and broadcast to the others. -/
def canvas_update (st : ServerState) (sid roomId : String)
    (elements : List Elem) (timestamp : Int) : ServerState × List Out :=
  match alookup st roomId with
  | none => (st, [])
  | some room =>
    (mapSet st roomId
       { room with canvasState := elements, lastUpdate := timestamp },
     [.toRoom roomId (.canvasUpdated elements sid timestamp)])

/-- The `cursor_move` handler: no-op unless both the room and the sender's
user record exist; otherwise overwrite the cursor and broadcast it. -/
def cursor_move (st : ServerState) (sid roomId : String) (x y : Int) :
    ServerState × List Out :=
  match alookup st roomId with
  | none => (st, [])
  | some room =>
    match alookup room.users sid with
    | none => (st, [])
    | some user =>
      let user' : User := { user with cursor := some (x, y) }
      (mapSet st roomId { room with users := mapSet room.users sid user' },
       [.toRoom roomId (.cursorUpdated sid user'.cursor user'.color
          user'.name user'.isDrawing)])

/-- The `drawing_start` handler: set `isDrawing` and notify the others. -/
def drawing_start (st : ServerState) (sid roomId : String) :
    ServerState × List Out :=
  match alookup st roomId with
  | none => (st, [])
  | some room =>
    match alookup room.users sid with
    | none => (st, [])
    | some user =>
      let user' : User := { user with isDrawing := true }
      (mapSet st roomId { room with users := mapSet room.users sid user' },
       [.toRoom roomId (.userDrawingStart sid user'.color user'.name)])

/-- The `drawing_end` handler: clear `isDrawing` and notify the others. -/
def drawing_end (st : ServerState) (sid roomId : String) :
    ServerState × List Out :=
  match alookup st roomId with
  | none => (st, [])
  | some room =>
    match alookup room.users sid with
    | none => (st, [])
    | some user =>
      let user' : User := { user with isDrawing := false }
      (mapSet st roomId { room with users := mapSet room.users sid user' },
       [.toRoom roomId (.userDrawingEnd sid)])

/-- The `request_sync` handler: reply to the sender only with the current
canvas state, timestamp and user list. -/
def request_sync (st : ServerState) (sid roomId : String) :
    ServerState × List Out :=
  match alookup st roomId with
  | none => (st, [])
  | some room =>
    (st, [.toSender (.syncResponse room.canvasState room.lastUpdate
       (mapValues room.users))])

/-- The `disconnect` handler: scan `rooms.entries()` in insertion order for
the first room containing the departing socket, remove the user there, delete
the room if it became empty (no departure notice then) and stop (`break`). -/
def disconnect : ServerState → String → ServerState × List Out
  | [], _ => ([], [])
  | (rid, room) :: rest, sid =>
    if (alookup room.users sid).isSome then
      let uname := (alookup room.users sid).map User.name
      let users' := mapDelete room.users sid
      if users'.length = 0 then
        (rest, [])
      else
        ((rid, { room with users := users' }) :: rest,
         [.toRoom rid (.userLeft sid uname)])
    else
      let r := disconnect rest sid
      ((rid, room) :: r.1, r.2)

/-- One inbound transport event, as dispatched by `io.on('connection')`. -/
inductive Event where
  | createRoom (sid username roomId : String) (now : Int)
  | joinRoom (sid roomId username : String)
  | canvasUpdate (sid roomId : String) (elements : List Elem)
      (timestamp : Int)
  | cursorMove (sid roomId : String) (x y : Int)
  | drawingStart (sid roomId : String)
  | drawingEnd (sid roomId : String)
  | requestSync (sid roomId : String)
  | disconnectEv (sid : String)
deriving DecidableEq

/-- State transition of the server on one event (the engine is
single-threaded: each event runs to completion before the next). -/
def stepE (st : ServerState) : Event → ServerState
  | .createRoom sid username roomId now =>
      (create_room st sid username roomId now).1
  | .joinRoom sid roomId username => (join_room st sid roomId username).1
  | .canvasUpdate sid roomId elements timestamp =>
      (canvas_update st sid roomId elements timestamp).1
  | .cursorMove sid roomId x y => (cursor_move st sid roomId x y).1
  | .drawingStart sid roomId => (drawing_start st sid roomId).1
  | .drawingEnd sid roomId => (drawing_end st sid roomId).1
  | .requestSync sid roomId => (request_sync st sid roomId).1
  | .disconnectEv sid => (disconnect st sid).1

/-- States reachable from the initial empty room map by any event sequence. -/
inductive Reachable : ServerState → Prop
  | init : Reachable []
  | step (st : ServerState) (e : Event) : Reachable st → Reachable (stepE st e)

/-! ## Well-formedness invariant of the room map -/

/-- Structural well-formedness the engine maintains: room ids are pairwise
distinct (the map really is a map) and no retained room has zero users. -/
def RoomsWF (st : ServerState) : Prop :=
  (st.map Prod.fst).Nodup ∧ ∀ p ∈ st, p.2.users ≠ []

/-- A minimal user record for concrete test states. -/
def mkTestUser (i : String) : User :=
  { id := i, name := "user", color := "#FF6B6B", cursor := none,
    isDrawing := false }

/-- A test room around a given user map. -/
def roomWithUsers (users : List (String × User)) : Room :=
  { id := "R", users := users, canvasState := [], lastUpdate := 0 }

/-- Ten distinct users, enough to fill a room to capacity. -/
def tenUsers : List (String × User) :=
  [("u0", mkTestUser "u0"), ("u1", mkTestUser "u1"), ("u2", mkTestUser "u2"),
   ("u3", mkTestUser "u3"), ("u4", mkTestUser "u4"), ("u5", mkTestUser "u5"),
   ("u6", mkTestUser "u6"), ("u7", mkTestUser "u7"), ("u8", mkTestUser "u8"),
   ("u9", mkTestUser "u9")]

/-- Eight users wearing the eight palette colors (fills the palette). -/
def paletteUsers : List (String × User) :=
  userColors.map (fun c =>
    (c, { id := c, name := "user", color := c, cursor := none,
          isDrawing := false }))

/-- The user record `join_room` constructs for the joining socket. -/
def joinedUser (sid uname : String) (room : Room) : User :=
  { id := sid, name := uname, color := getAvailableColor room,
    cursor := none, isDrawing := false }

/-- Server state after socket "a" ("Alice") creates room "R1". -/
def exSt1 : ServerState := stepE [] (.createRoom "a" "Alice" "R1" 0)

/-- The single room of `exSt1`. -/
def exRoom1 : Room :=
  { id := "R1",
    users := [("a", { id := "a", name := "Alice", color := "#FF6B6B",
                      cursor := none, isDrawing := false })],
    canvasState := [], lastUpdate := 0 }

/-- `exSt1` after "b" creates room "R2" and "a" additionally joins "R2". -/
def exSt3 : ServerState :=
  stepE (stepE exSt1 (.createRoom "b" "Bob" "R2" 0))
    (.joinRoom "a" "R2" "Alice")

@[simp] theorem alookup_nil {α : Type} (k : String) :
    alookup ([] : List (String × α)) k = none := rfl

theorem alookup_mapSet_self {α : Type} (m : List (String × α)) (k : String)
    (v : α) : alookup (mapSet m k v) k = some v := by
  induction m with
  | nil => simp [mapSet, alookup]
  | cons p rest ih =>
    obtain ⟨k', v'⟩ := p
    by_cases hp : k' = k
    · simp [mapSet, hp, alookup]
    · simpa [mapSet, hp, alookup] using ih

theorem alookup_mapSet_other {α : Type} (m : List (String × α)) (k k' : String)
    (v : α) (hne : k ≠ k') : alookup (mapSet m k v) k' = alookup m k' := by
  induction m with
  | nil => simp [mapSet, alookup, hne]
  | cons p rest ih =>
    obtain ⟨k₀, v₀⟩ := p
    by_cases hp : k₀ = k
    · subst hp
      simp [mapSet, alookup, hne]
    · by_cases hp' : k₀ = k'
      · simp [mapSet, hp, alookup, hp', Ne.symm hne]
      · simpa [mapSet, hp, alookup, hp'] using ih

theorem alookup_mapDelete_self {α : Type} (m : List (String × α)) (k : String) :
    alookup (mapDelete m k) k = none := by
  induction m with
  | nil => rfl
  | cons p rest ih =>
    by_cases hp : p.1 = k
    · simpa [mapDelete, hp] using ih
    · simpa [mapDelete, alookup, hp] using ih

theorem alookup_mapDelete_other {α : Type} (m : List (String × α))
    (k k' : String) (hne : k ≠ k') :
    alookup (mapDelete m k) k' = alookup m k' := by
  induction m with
  | nil => rfl
  | cons p rest ih =>
    obtain ⟨k₀, v₀⟩ := p
    by_cases hp : k₀ = k
    · subst hp
      simpa [mapDelete, alookup, hne] using ih
    · by_cases hp' : k₀ = k'
      · simp [mapDelete, hp, alookup, hp', Ne.symm hne]
      · simpa [mapDelete, hp, alookup, hp'] using ih

theorem mapDelete_of_absent {α : Type} (m : List (String × α)) (k : String)
    (h : alookup m k = none) : mapDelete m k = m := by
  induction m with
  | nil => rfl
  | cons p rest ih =>
    by_cases hp : p.1 = k
    · simp [alookup, hp] at h
    · have hrest : alookup rest k = none := by simpa [alookup, hp] using h
      simp [mapDelete] at ih ⊢
      exact ⟨hp, ih hrest⟩

theorem alookup_eq_none_of_not_mem_keys {α : Type} (m : List (String × α))
    (k : String) (h : k ∉ m.map Prod.fst) : alookup m k = none := by
  induction m with
  | nil => rfl
  | cons p rest ih =>
    simp only [List.map_cons, List.mem_cons] at h
    push_neg at h
    have hp : p.1 ≠ k := fun hh => h.1 hh.symm
    simp [alookup, hp, ih h.2]

/-- Lookup law of the JS spread merge: a key of the patch (a JS object, hence
with pairwise-distinct keys) reads back its patch value, any other key reads
back its old value. -/
theorem alookup_mergeProps (patch : List (String × String)) :
    ∀ (old : List (String × String)),
      (patch.map Prod.fst).Nodup →
      ∀ k, alookup (mergeProps old patch) k =
        match alookup patch k with
        | some v => some v
        | none => alookup old k := by
  induction patch with
  | nil => intro old _ k; rfl
  | cons kv rest ih =>
    intro old hnd k
    obtain ⟨k₀, v₀⟩ := kv
    simp only [List.map_cons, List.nodup_cons] at hnd
    have hstep : mergeProps old ((k₀, v₀) :: rest) =
        mergeProps (mapSet old k₀ v₀) rest := rfl
    rw [hstep, ih (mapSet old k₀ v₀) hnd.2 k]
    by_cases hk : k₀ = k
    · subst hk
      have hrest : alookup rest k₀ = none :=
        alookup_eq_none_of_not_mem_keys rest k₀ hnd.1
      simp [hrest, alookup, alookup_mapSet_self]
    · simp [alookup, hk]
      cases alookup rest k with
      | none => simp [alookup_mapSet_other old k₀ k v₀ hk]
      | some v => simp

/-! ## Auxiliary lemmas about the embedded JavaScript maps -/

theorem alookup_isSome_iff_mem_keys {α : Type} (m : List (String × α))
    (k : String) : (alookup m k).isSome ↔ k ∈ m.map Prod.fst := by
  induction m with
  | nil => simp [alookup]
  | cons p rest ih =>
    obtain ⟨k₀, v₀⟩ := p
    by_cases hp : k₀ = k
    · simp [alookup, hp]
    · rw [List.map_cons, List.mem_cons]
      simp only [alookup, if_neg hp]
      constructor
      · intro h
        exact Or.inr (ih.mp h)
      · intro h
        rcases h with h | h
        · exact absurd h.symm hp
        · exact ih.mpr h

theorem keys_mapSet {α : Type} (m : List (String × α)) (k : String) (v : α) :
    (mapSet m k v).map Prod.fst =
      if k ∈ m.map Prod.fst then m.map Prod.fst
      else m.map Prod.fst ++ [k] := by
  induction m with
  | nil => simp [mapSet]
  | cons p rest ih =>
    obtain ⟨k₀, v₀⟩ := p
    by_cases hp : k₀ = k
    · subst hp
      simp [mapSet]
    · have hne : ¬ k = k₀ := fun h => hp h.symm
      by_cases hk : k ∈ rest.map Prod.fst
      · simp [mapSet, hp, ih, hk, hne]
      · simp [mapSet, hp, ih, hk, hne]

theorem nodup_keys_mapSet {α : Type} (m : List (String × α)) (k : String)
    (v : α) (h : (m.map Prod.fst).Nodup) :
    ((mapSet m k v).map Prod.fst).Nodup := by
  rw [keys_mapSet]
  by_cases hk : k ∈ m.map Prod.fst
  · simpa [hk] using h
  · simp only [hk, if_false]
    rw [List.nodup_append]
    refine ⟨h, List.nodup_singleton k, ?_⟩
    intro a ha hb
    rw [List.mem_singleton] at hb
    exact hk (hb ▸ ha)

theorem mem_mapSet {α : Type} (m : List (String × α)) (k : String) (v : α)
    (p : String × α) (h : p ∈ mapSet m k v) : p = (k, v) ∨ p ∈ m := by
  induction m with
  | nil => simpa [mapSet] using h
  | cons q rest ih =>
    obtain ⟨k₀, v₀⟩ := q
    by_cases hp : k₀ = k
    · simp only [mapSet, if_pos hp, List.mem_cons] at h
      rcases h with h | h
      · exact Or.inl h
      · exact Or.inr (List.mem_cons_of_mem _ h)
    · simp only [mapSet, if_neg hp, List.mem_cons] at h
      rcases h with h | h
      · exact Or.inr (by simp [h])
      · rcases ih h with h' | h'
        · exact Or.inl h'
        · exact Or.inr (List.mem_cons_of_mem _ h')

theorem mapSet_ne_nil {α : Type} (m : List (String × α)) (k : String)
    (v : α) : mapSet m k v ≠ [] := by
  cases m with
  | nil => simp [mapSet]
  | cons p rest =>
    obtain ⟨k₀, v₀⟩ := p
    by_cases hp : k₀ = k <;> simp [mapSet, hp]

theorem alookup_mem {α : Type} (m : List (String × α)) (k : String) (v : α)
    (h : alookup m k = some v) : (k, v) ∈ m := by
  induction m with
  | nil => simp [alookup] at h
  | cons p rest ih =>
    obtain ⟨k₀, v₀⟩ := p
    by_cases hp : k₀ = k
    · subst hp
      simp [alookup] at h
      simp [h]
    · simp only [alookup, if_neg hp] at h
      exact List.mem_cons_of_mem _ (ih h)

theorem mapSet_mapSet_same {α : Type} (m : List (String × α)) (k : String)
    (v : α) : mapSet (mapSet m k v) k v = mapSet m k v := by
  induction m with
  | nil => simp [mapSet]
  | cons p rest ih =>
    obtain ⟨k₀, v₀⟩ := p
    by_cases hp : k₀ = k
    · simp [mapSet, hp]
    · simp [mapSet, hp, ih]

theorem keys_mapDelete_sublist {α : Type} (m : List (String × α))
    (k : String) :
    ((mapDelete m k).map Prod.fst).Sublist (m.map Prod.fst) :=
  List.Sublist.map Prod.fst (List.filter_sublist m)

theorem mapDelete_of_singleton {α : Type} (m : List (String × α)) (k : String)
    (hk : (alookup m k).isSome) (hlen : m.length = 1) :
    mapDelete m k = [] := by
  match m, hlen with
  | [(k₀, v₀)], _ =>
    have : k₀ = k := by
      by_contra hne
      simp [alookup, hne] at hk
    simp [mapDelete, this]

theorem roomsWF_mapSet (st : ServerState) (rid : String) (room : Room)
    (h : RoomsWF st) (hroom : room.users ≠ []) :
    RoomsWF (mapSet st rid room) := by
  refine ⟨nodup_keys_mapSet st rid room h.1, ?_⟩
  intro p hp
  rcases mem_mapSet st rid room p hp with h' | h'
  · rw [h']
    exact hroom
  · exact h.2 p h'

theorem disconnect_users_nonempty (sid : String) :
    ∀ (st : ServerState), (∀ p ∈ st, p.2.users ≠ []) →
      ∀ p ∈ (disconnect st sid).1, p.2.users ≠ [] := by
  intro st
  induction st with
  | nil =>
    intro _ p hp
    simp [disconnect] at hp
  | cons q rest ih =>
    obtain ⟨rid, room⟩ := q
    intro hall p hp
    by_cases hmem : (alookup room.users sid).isSome
    · by_cases hlen : (mapDelete room.users sid).length = 0
      · simp only [disconnect, if_pos hmem, if_pos hlen] at hp
        exact hall p (List.mem_cons_of_mem _ hp)
      · simp only [disconnect, if_pos hmem, if_neg hlen] at hp
        rcases List.mem_cons.mp hp with h | h
        · rw [h]
          intro hnil
          exact hlen (List.length_eq_zero.mpr hnil)
        · exact hall p (List.mem_cons_of_mem _ h)
    · simp only [disconnect, if_neg hmem] at hp
      rcases List.mem_cons.mp hp with h | h
      · rw [h]
        exact hall (rid, room) (List.mem_cons_self _ _)
      · exact ih (fun p hp => hall p (List.mem_cons_of_mem _ hp)) p h

theorem disconnect_keys_sublist (sid : String) :
    ∀ (st : ServerState),
      ((disconnect st sid).1.map Prod.fst).Sublist (st.map Prod.fst) := by
  intro st
  induction st with
  | nil => simp [disconnect]
  | cons q rest ih =>
    obtain ⟨rid, room⟩ := q
    by_cases hmem : (alookup room.users sid).isSome
    · by_cases hlen : (mapDelete room.users sid).length = 0
      · simp only [disconnect, if_pos hmem, if_pos hlen]
        exact (List.Sublist.refl _).cons _
      · simp only [disconnect, if_pos hmem, if_neg hlen]
        simp only [List.map_cons]
        exact (List.Sublist.refl _).cons₂ _
    · simp only [disconnect, if_neg hmem]
      simp only [List.map_cons]
      exact ih.cons₂ _

theorem stepE_preserves_wf (st : ServerState) (e : Event)
    (h : RoomsWF st) : RoomsWF (stepE st e) := by
  cases e with
  | createRoom sid username roomId now =>
    simp only [stepE, create_room]
    by_cases hc : (alookup st roomId).isSome
    · simpa [hc] using h
    · simp only [hc, if_false]
      exact roomsWF_mapSet st roomId _ h (by simp [mapSet])
  | joinRoom sid roomId username =>
    simp only [stepE, join_room]
    cases hr : alookup st roomId with
    | none => exact h
    | some room =>
      by_cases hcap : room.users.length ≥ 10
      · simpa [hcap] using h
      · simp only [hcap, if_false]
        exact roomsWF_mapSet st roomId _ h (mapSet_ne_nil _ _ _)
  | canvasUpdate sid roomId elements timestamp =>
    simp only [stepE, canvas_update]
    cases hr : alookup st roomId with
    | none => exact h
    | some room =>
      exact roomsWF_mapSet st roomId _ h (h.2 (roomId, room) (alookup_mem _ _ _ hr))
  | cursorMove sid roomId x y =>
    simp only [stepE, cursor_move]
    split
    · exact h
    · split
      · exact h
      · exact roomsWF_mapSet st roomId _ h (mapSet_ne_nil _ _ _)
  | drawingStart sid roomId =>
    simp only [stepE, drawing_start]
    split
    · exact h
    · split
      · exact h
      · exact roomsWF_mapSet st roomId _ h (mapSet_ne_nil _ _ _)
  | drawingEnd sid roomId =>
    simp only [stepE, drawing_end]
    split
    · exact h
    · split
      · exact h
      · exact roomsWF_mapSet st roomId _ h (mapSet_ne_nil _ _ _)
  | requestSync sid roomId =>
    simp only [stepE, request_sync]
    cases hr : alookup st roomId with
    | none => exact h
    | some room => exact h
  | disconnectEv sid =>
    simp only [stepE]
    exact ⟨(disconnect_keys_sublist sid st).nodup h.1,
           disconnect_users_nonempty sid st h.2⟩

/-- Every reachable server state is well-formed: distinct room ids and no
retained empty room. -/
theorem reachable_wf (st : ServerState) (h : Reachable st) : RoomsWF st := by
  induction h with
  | init => exact ⟨List.nodup_nil, by simp⟩
  | step st e _ ih => exact stepE_preserves_wf st e ih

/-- Behaviour of the `disconnect` scan when the departing socket belongs to
exactly one room (the room at key `rid`): the socket is a member of no room
afterwards, and the room itself survives (with the user deleted) exactly when
other users remain, otherwise it is deleted from the map. -/
theorem disconnect_removes (sid rid : String) (room : Room) :
    ∀ (st : ServerState),
      (st.map Prod.fst).Nodup →
      alookup st rid = some room →
      (alookup room.users sid).isSome →
      (∀ p ∈ st, (alookup p.2.users sid).isSome → p.1 = rid) →
      (∀ rid' room', alookup (disconnect st sid).1 rid' = some room' →
         alookup room'.users sid = none) ∧
      ((mapDelete room.users sid).length = 0 →
         alookup (disconnect st sid).1 rid = none) ∧
      ((mapDelete room.users sid).length ≠ 0 →
         alookup (disconnect st sid).1 rid =
           some { room with users := mapDelete room.users sid }) := by
  intro st
  induction st with
  | nil =>
    intro _ hroom
    simp [alookup] at hroom
  | cons q rest ih =>
    obtain ⟨k₀, r₀⟩ := q
    intro hnd hroom hmem honly
    rw [List.map_cons, List.nodup_cons] at hnd
    by_cases hk : k₀ = rid
    · subst hk
      have hr : r₀ = room := by simpa [alookup] using hroom
      subst hr
      by_cases hlen : (mapDelete r₀.users sid).length = 0
      · have hres : (disconnect ((k₀, r₀) :: rest) sid).1 = rest := by
          simp [disconnect, hmem, hlen]
        refine ⟨?_, ?_, ?_⟩
        · intro rid' room' hl
          rw [hres] at hl
          by_contra hne
          have hs : (alookup room'.users sid).isSome :=
            Option.ne_none_iff_isSome.mp hne
          have hmemr : (rid', room') ∈ rest := alookup_mem rest rid' room' hl
          have heq : rid' = k₀ :=
            honly (rid', room') (List.mem_cons_of_mem _ hmemr) hs
          subst heq
          have : rid' ∈ rest.map Prod.fst :=
            (alookup_isSome_iff_mem_keys rest rid').mp (by rw [hl]; rfl)
          exact hnd.1 this
        · intro _
          rw [hres]
          exact alookup_eq_none_of_not_mem_keys rest k₀ hnd.1
        · intro hcon
          exact absurd hlen hcon
      · have hres : (disconnect ((k₀, r₀) :: rest) sid).1 =
            (k₀, { r₀ with users := mapDelete r₀.users sid }) :: rest := by
          simp [disconnect, hmem, hlen]
        refine ⟨?_, ?_, ?_⟩
        · intro rid' room' hl
          rw [hres] at hl
          by_cases hrr : k₀ = rid'
          · have hroom' : room' = { r₀ with users := mapDelete r₀.users sid } := by
              simp [alookup, hrr] at hl
              exact hl.symm
            rw [hroom']
            exact alookup_mapDelete_self r₀.users sid
          · simp only [alookup, if_neg hrr] at hl
            by_contra hne
            have hs : (alookup room'.users sid).isSome :=
              Option.ne_none_iff_isSome.mp hne
            have hmemr : (rid', room') ∈ rest := alookup_mem rest rid' room' hl
            have heq : rid' = k₀ :=
              honly (rid', room') (List.mem_cons_of_mem _ hmemr) hs
            exact hrr heq.symm
        · intro hcon
          exact absurd hcon hlen
        · intro _
          rw [hres]
          simp [alookup]
    · have hheadnone : ¬ (alookup r₀.users sid).isSome :=
        fun hs => hk (honly (k₀, r₀) (List.mem_cons_self _ _) hs)
      have hroomr : alookup rest rid = some room := by
        simpa [alookup, hk] using hroom
      have ihres := ih hnd.2 hroomr hmem
        (fun p hp hs => honly p (List.mem_cons_of_mem _ hp) hs)
      have hres : (disconnect ((k₀, r₀) :: rest) sid).1 =
          (k₀, r₀) :: (disconnect rest sid).1 := by
        simp [disconnect, hheadnone]
      refine ⟨?_, ?_, ?_⟩
      · intro rid' room' hl
        rw [hres] at hl
        by_cases hrr : k₀ = rid'
        · have hroom' : room' = r₀ := by
            simp [alookup, hrr] at hl
            exact hl.symm
          rw [hroom']
          exact Option.not_isSome_iff_eq_none.mp hheadnone
        · simp only [alookup, if_neg hrr] at hl
          exact ihres.1 rid' room' hl
      · intro hlen
        rw [hres]
        simp only [alookup, if_neg hk]
        exact ihres.2.1 hlen
      · intro hlen
        rw [hres]
        simp only [alookup, if_neg hk]
        exact ihres.2.2 hlen

theorem length_mapSet {α : Type} (m : List (String × α)) (k : String)
    (v : α) : (mapSet m k v).length =
      if (alookup m k).isSome then m.length else m.length + 1 := by
  induction m with
  | nil => simp [mapSet, alookup]
  | cons p rest ih =>
    obtain ⟨k₀, v₀⟩ := p
    by_cases hp : k₀ = k
    · simp [mapSet, hp, alookup]
    · by_cases hs : (alookup rest k).isSome
      · simp [mapSet, hp, alookup, hs] at ih ⊢
        exact ih
      · simp [mapSet, hp, alookup, hs] at ih ⊢
        exact ih

theorem mapSet_mem_self {α : Type} (m : List (String × α)) (k : String)
    (v : α) : (k, v) ∈ mapSet m k v := by
  induction m with
  | nil => simp [mapSet]
  | cons p rest ih =>
    obtain ⟨k₀, v₀⟩ := p
    by_cases hp : k₀ = k
    · simp [mapSet, hp]
    · simp [mapSet, hp, ih]

theorem find?_prop {α : Type} (p : α → Bool) :
    ∀ (l : List α) (a : α), l.find? p = some a → p a = true := by
  intro l
  induction l with
  | nil =>
    intro a h
    simp [List.find?] at h
  | cons x rest ih =>
    intro a h
    by_cases hp : p x
    · rw [List.find?_cons_of_pos _ hp] at h
      obtain rfl : x = a := by injection h
      exact hp
    · rw [List.find?_cons_of_neg _ (by simpa using hp)] at h
      exact ih a h

theorem find?_first {α : Type} (p : α → Bool) :
    ∀ (l : List α) (a : α), l.find? p = some a →
      ∃ l1 l2, l = l1 ++ a :: l2 ∧ ∀ x ∈ l1, p x = false := by
  intro l
  induction l with
  | nil =>
    intro a h
    simp [List.find?] at h
  | cons x rest ih =>
    intro a h
    by_cases hp : p x
    · rw [List.find?_cons_of_pos _ hp] at h
      obtain rfl : x = a := by injection h
      exact ⟨[], rest, rfl, by simp⟩
    · rw [List.find?_cons_of_neg _ (by simpa using hp)] at h
      obtain ⟨l1, l2, heq, hall⟩ := ih a h
      refine ⟨x :: l1, l2, by simp [heq], ?_⟩
      intro y hy
      rcases List.mem_cons.mp hy with h' | h'
      · rw [h']
        simpa using hp
      · exact hall y h'

/-! ## Claim theorems -/

/-- C1: a modify event for a stored id shallow-merges the partial properties
map into the existing object's properties — patch-only keys are added, shared
keys take the patch value, untouched keys keep their old value — and in the
concrete scenario, add of `{id:"r1", properties:{shape:"rect"}}` followed by
modify of `{id:"r1", properties:{color:"red"}}` stores
`{id:"r1", properties:{shape:"rect", color:"red"}}`. -/
theorem C1_modify_shallow_merges (store : List (String × WhiteboardObject))
    (i : String) (obj : WhiteboardObject) (patch : List (String × String))
    (hin : alookup store i = some obj)
    (hnd : (patch.map Prod.fst).Nodup) :
    (alookup (handleObjectModified store { id := i, props := patch }).objects i =
       some { obj with props := mergeProps obj.props patch }) ∧
    (∀ k v, alookup patch k = some v →
       alookup (mergeProps obj.props patch) k = some v) ∧
    (∀ k, alookup patch k = none →
       alookup (mergeProps obj.props patch) k = alookup obj.props k) ∧
    (alookup
       (handleObjectModified
         (handleObjectAdded [] { id := "r1", props := [("shape", "rect")] }).objects
         { id := "r1", props := [("color", "red")] }).objects "r1" =
       some { id := "r1", props := [("shape", "rect"), ("color", "red")] }) := by
  refine ⟨?_, ?_, ?_, ?_⟩
  · simp only [handleObjectModified, hin]
    exact alookup_mapSet_self _ _ _
  · intro k v hk
    rw [alookup_mergeProps patch obj.props hnd k, hk]
  · intro k hk
    rw [alookup_mergeProps patch obj.props hnd k, hk]
  · decide

/-- Witness for C1 at a concrete store and patch. -/
theorem C1_modify_shallow_merges_witness :
    alookup (handleObjectModified
        [("a", ({ id := "a", props := [("x", "1")] } : WhiteboardObject))]
        { id := "a", props := [("y", "2")] }).objects "a" =
      some { ({ id := "a", props := [("x", "1")] } : WhiteboardObject) with
             props := mergeProps [("x", "1")] [("y", "2")] } :=
  (C1_modify_shallow_merges
    [("a", { id := "a", props := [("x", "1")] })] "a"
    { id := "a", props := [("x", "1")] } [("y", "2")]
    (by decide) (by decide)).1

/-- C5: a modify event whose id is absent from the store is a no-op — the
object store is unchanged and nothing is broadcast. -/
theorem C5_modify_absent_noop (store : List (String × WhiteboardObject))
    (data : WhiteboardObject) (h : alookup store data.id = none) :
    (handleObjectModified store data).objects = store ∧
    (handleObjectModified store data).broadcasts = [] := by
  simp [handleObjectModified, h]

/-- Witness for C5 on an empty store. -/
theorem C5_modify_absent_noop_witness :
    (handleObjectModified [] { id := "z", props := [] }).objects =
      ([] : List (String × WhiteboardObject)) ∧
    (handleObjectModified [] { id := "z", props := [] }).broadcasts = [] :=
  C5_modify_absent_noop [] { id := "z", props := [] } (by decide)

/-- C6 counterexample: removing an id that is absent from the store is not
free of side effects — the removal event is still broadcast to the other
clients (`client.broadcast.emit('object:removed', data)` is unconditional). -/
theorem C6_remove_counterexample :
    (handleObjectRemoved [] { id := "x", props := [] }).broadcasts ≠ [] := by
  decide

/-- C6 amended: a remove event deletes the entry when the id is present and
leaves the store unchanged when the id is absent, but in both cases the
removal event is broadcast to the other participants. -/
theorem C6_remove_amended (store : List (String × WhiteboardObject))
    (data : WhiteboardObject) :
    (alookup (handleObjectRemoved store data).objects data.id = none) ∧
    (∀ k, k ≠ data.id →
       alookup (handleObjectRemoved store data).objects k = alookup store k) ∧
    (alookup store data.id = none →
       (handleObjectRemoved store data).objects = store) ∧
    ((handleObjectRemoved store data).broadcasts = [.objectRemoved data]) := by
  refine ⟨alookup_mapDelete_self _ _, ?_, ?_, rfl⟩
  · intro k hk
    exact alookup_mapDelete_other store data.id k (fun h => hk h.symm)
  · intro h
    simp [handleObjectRemoved, mapDelete_of_absent store data.id h]

/-- Witness for C6's amended statement at a present and at an absent id. -/
theorem C6_remove_amended_witness :
    (alookup (handleObjectRemoved
        [("x", ({ id := "x", props := [] } : WhiteboardObject))]
        { id := "x", props := [] }).objects "x" = none) ∧
    (alookup (handleObjectRemoved
        [("x", ({ id := "x", props := [] } : WhiteboardObject))]
        { id := "x", props := [] }).objects "y" =
      alookup [("x", ({ id := "x", props := [] } : WhiteboardObject))] "y") ∧
    ((handleObjectRemoved [] ({ id := "x", props := [] } : WhiteboardObject)).objects = []) :=
  ⟨(C6_remove_amended [("x", { id := "x", props := [] })] { id := "x", props := [] }).1,
   (C6_remove_amended [("x", { id := "x", props := [] })] { id := "x", props := [] }).2.1
     "y" (by decide),
   (C6_remove_amended [] { id := "x", props := [] }).2.2.1 (by decide)⟩

/-- C2: joining a room whose user count equals the capacity of 10 fails with
the room-full error to the requester only and leaves the state unchanged;
joining a room at 9 users (as a socket that is not already a member) succeeds
and brings the count to exactly 10. -/
theorem C2_capacity_limit (st : ServerState) (rid : String) (room : Room)
    (sid uname : String) (h : alookup st rid = some room) :
    (room.users.length = 10 →
       join_room st sid rid uname =
         (st, [.toSender (.roomError "Room is full")])) ∧
    (room.users.length = 9 → alookup room.users sid = none →
       (alookup (join_room st sid rid uname).1 rid).map
           (fun r => r.users.length) = some 10) := by
  constructor
  · intro h10
    simp only [join_room, h]
    rw [if_pos (by omega)]
  · intro h9 hfresh
    simp only [join_room, h]
    rw [if_neg (by omega)]
    simp only [alookup_mapSet_self, Option.map_some']
    rw [length_mapSet, hfresh]
    simp [h9]

/-- Witness for C2 at a full room and at a room with nine users. -/
theorem C2_capacity_limit_witness :
    (join_room [("R", roomWithUsers tenUsers)] "s" "R" "n" =
       ([("R", roomWithUsers tenUsers)],
        [.toSender (.roomError "Room is full")])) ∧
    ((alookup (join_room [("R", roomWithUsers (tenUsers.take 9))]
          "s" "R" "n").1 "R").map (fun r => r.users.length) = some 10) :=
  ⟨(C2_capacity_limit [("R", roomWithUsers tenUsers)] "R"
      (roomWithUsers tenUsers) "s" "n" (by decide)).1 (by decide),
   (C2_capacity_limit [("R", roomWithUsers (tenUsers.take 9))] "R"
      (roomWithUsers (tenUsers.take 9)) "s" "n" (by decide)).2
     (by decide) (by decide)⟩

/-- C4: a canvas-replace event on an existing room unconditionally overwrites
`canvasState` with the payload's elements and `lastUpdate` with the payload's
timestamp — no comparison with the previous `lastUpdate` is made — broadcasts
the mutation to the others, and processing the identical payload twice yields
exactly the result of processing it once. -/
theorem C4_canvas_replace_lww (st : ServerState) (sid rid : String)
    (elements : List Elem) (ts : Int) (room : Room)
    (h : alookup st rid = some room) :
    (alookup (canvas_update st sid rid elements ts).1 rid =
       some { room with canvasState := elements, lastUpdate := ts }) ∧
    ((canvas_update st sid rid elements ts).2 =
       [.toRoom rid (.canvasUpdated elements sid ts)]) ∧
    (canvas_update (canvas_update st sid rid elements ts).1 sid rid
        elements ts = canvas_update st sid rid elements ts) := by
  have h1 : (canvas_update st sid rid elements ts).1 =
      mapSet st rid { room with canvasState := elements, lastUpdate := ts } := by
    simp [canvas_update, h]
  have h2 : alookup (canvas_update st sid rid elements ts).1 rid =
      some { room with canvasState := elements, lastUpdate := ts } := by
    rw [h1]
    exact alookup_mapSet_self _ _ _
  refine ⟨h2, by simp [canvas_update, h], ?_⟩
  conv_lhs => rw [canvas_update]
  rw [h2]
  simp only [h1, mapSet_mapSet_same]
  simp [canvas_update, h, h1]

/-- Witness for C4 at a concrete one-room state. -/
theorem C4_canvas_replace_lww_witness :
    (alookup (canvas_update [("R", roomWithUsers tenUsers)] "s" "R"
        ["e1", "e2"] 5).1 "R" =
      some ({ roomWithUsers tenUsers with
              canvasState := ["e1", "e2"], lastUpdate := 5 } : Room)) ∧
    (canvas_update (canvas_update [("R", roomWithUsers tenUsers)] "s" "R"
        ["e1", "e2"] 5).1 "s" "R" ["e1", "e2"] 5 =
      canvas_update [("R", roomWithUsers tenUsers)] "s" "R" ["e1", "e2"] 5) :=
  ⟨(C4_canvas_replace_lww [("R", roomWithUsers tenUsers)] "s" "R"
      ["e1", "e2"] 5 (roomWithUsers tenUsers) (by decide)).1,
   (C4_canvas_replace_lww [("R", roomWithUsers tenUsers)] "s" "R"
      ["e1", "e2"] 5 (roomWithUsers tenUsers) (by decide)).2.2⟩

/-- C8: the color assigned at join/create time is the first palette entry not
in use in the room; when every palette color is in use the first palette
color `#FF6B6B` is assigned; and the user stored by a successful join indeed
wears `getAvailableColor` of the room joined. -/
theorem C8_first_free_color (room : Room) :
    ((∃ c ∈ userColors, c ∉ usedColors room) →
       getAvailableColor room ∉ usedColors room ∧
       ∃ l1 l2, userColors = l1 ++ getAvailableColor room :: l2 ∧
         ∀ c ∈ l1, c ∈ usedColors room) ∧
    ((∀ c ∈ userColors, c ∈ usedColors room) →
       getAvailableColor room = "#FF6B6B") ∧
    (∀ st sid rid uname, alookup st rid = some room →
       room.users.length < 10 →
       (alookup (join_room st sid rid uname).1 rid).map
           (fun r => (alookup r.users sid).map User.color) =
         some (some (getAvailableColor room))) := by
  refine ⟨?_, ?_, ?_⟩
  · intro hex
    cases hfind : userColors.find? (fun c => decide (c ∉ usedColors room)) with
    | none =>
      exfalso
      obtain ⟨c, hc, hnot⟩ := hex
      have hfalse := List.find?_eq_none.mp hfind c hc
      simp at hfalse
      exact hnot hfalse
    | some c =>
      have hga : getAvailableColor room = c := by
        unfold getAvailableColor
        rw [hfind]
      have hp := find?_prop (fun x => decide (x ∉ usedColors room))
        userColors c hfind
      have hcnot : c ∉ usedColors room := of_decide_eq_true (by simpa using hp)
      obtain ⟨l1, l2, heq, hall⟩ :=
        find?_first (fun c => decide (c ∉ usedColors room)) userColors c hfind
      refine ⟨hga ▸ hcnot, l1, l2, by rw [hga]; exact heq, ?_⟩
      intro x hx
      have hxf := hall x hx
      simp at hxf
      exact hxf
  · intro hall
    have hfind : userColors.find? (fun c => decide (c ∉ usedColors room)) =
        none := by
      rw [List.find?_eq_none]
      intro x hx
      simp [hall x hx]
    unfold getAvailableColor
    rw [hfind]
    decide
  · intro st sid rid uname h hcap
    simp only [join_room, h]
    rw [if_neg (by omega)]
    simp only [alookup_mapSet_self, Option.map_some']

/-- Witness for C8: one user wears the first palette color, so the next free
color is the second palette entry; with all palette colors in use the
fallback is the first palette color; a concrete join stores that color. -/
theorem C8_first_free_color_witness :
    (getAvailableColor (roomWithUsers [("a", mkTestUser "a")]) ∉
       usedColors (roomWithUsers [("a", mkTestUser "a")])) ∧
    (getAvailableColor (roomWithUsers paletteUsers) = "#FF6B6B") ∧
    ((alookup (join_room [("R", roomWithUsers [("a", mkTestUser "a")])]
          "s" "R" "n").1 "R").map
        (fun r => (alookup r.users "s").map User.color) =
      some (some (getAvailableColor (roomWithUsers [("a", mkTestUser "a")])))) :=
  ⟨((C8_first_free_color (roomWithUsers [("a", mkTestUser "a")])).1
      (by decide)).1,
   (C8_first_free_color (roomWithUsers paletteUsers)).2.1 (by decide),
   (C8_first_free_color (roomWithUsers [("a", mkTestUser "a")])).2.2
     [("R", roomWithUsers [("a", mkTestUser "a")])] "s" "R" "n"
     (by decide) (by decide)⟩

/-- C9: a successful join replies to the joiner only with the full snapshot —
the room's current canvas state plus the complete post-join participant list,
which contains the joiner — and then notifies the others with a
new-participant notice (not the snapshot); in the single-global-session
gateway, a new connection likewise receives the full object store as a direct
reply and nothing is broadcast. -/
theorem C9_join_reply_snapshot (st : ServerState) (sid rid uname : String)
    (room : Room) (h : alookup st rid = some room)
    (hcap : room.users.length < 10) :
    ((join_room st sid rid uname).2 =
       [.toSender (.roomJoined rid (joinedUser sid uname room)
          (mapValues (mapSet room.users sid (joinedUser sid uname room)))
          room.canvasState),
        .toRoom rid (.userJoined (joinedUser sid uname room))]) ∧
    (joinedUser sid uname room ∈
       mapValues (mapSet room.users sid (joinedUser sid uname room))) ∧
    (∀ wstore cid, (handleConnection wstore cid).toClient =
        [WbMsg.objectSync (mapValues wstore)] ∧
      (handleConnection wstore cid).broadcasts = []) := by
  refine ⟨?_, ?_, ?_⟩
  · simp only [join_room, h]
    rw [if_neg (by omega)]
    rfl
  · simp only [mapValues]
    exact List.mem_map_of_mem Prod.snd
      (mapSet_mem_self room.users sid (joinedUser sid uname room))
  · intro wstore cid
    exact ⟨rfl, rfl⟩

/-- Witness for C9 at a concrete one-user room. -/
theorem C9_join_reply_snapshot_witness :
    ((join_room [("R", roomWithUsers [("a", mkTestUser "a")])]
        "s" "R" "n").2 =
      [.toSender (.roomJoined "R"
         (joinedUser "s" "n" (roomWithUsers [("a", mkTestUser "a")]))
         (mapValues (mapSet (roomWithUsers [("a", mkTestUser "a")]).users "s"
           (joinedUser "s" "n" (roomWithUsers [("a", mkTestUser "a")]))))
         (roomWithUsers [("a", mkTestUser "a")]).canvasState),
       .toRoom "R" (.userJoined
         (joinedUser "s" "n" (roomWithUsers [("a", mkTestUser "a")])))]) ∧
    (joinedUser "s" "n" (roomWithUsers [("a", mkTestUser "a")]) ∈
       mapValues (mapSet (roomWithUsers [("a", mkTestUser "a")]).users "s"
         (joinedUser "s" "n" (roomWithUsers [("a", mkTestUser "a")])))) :=
  ⟨(C9_join_reply_snapshot [("R", roomWithUsers [("a", mkTestUser "a")])]
      "s" "R" "n" (roomWithUsers [("a", mkTestUser "a")])
      (by decide) (by decide)).1,
   (C9_join_reply_snapshot [("R", roomWithUsers [("a", mkTestUser "a")])]
      "s" "R" "n" (roomWithUsers [("a", mkTestUser "a")])
      (by decide) (by decide)).2.1⟩

/-- C10 counterexample: a repeated `join_room` from an already-joined socket
replaces its participant record and changes its color — after creating "R1"
the sole participant "a" wears the first palette color, and a second join of
"a" to "R1" reassigns it the second palette color, so an event processed
after the participant joined does change the `color` field. -/
theorem C10_rejoin_changes_color_counterexample :
    ((alookup exSt1 "R1").map
        (fun r => (alookup r.users "a").map User.color) =
      some (some "#FF6B6B")) ∧
    ((alookup (stepE exSt1 (.joinRoom "a" "R1" "Alice")) "R1").map
        (fun r => (alookup r.users "a").map User.color) =
      some (some "#4ECDC4")) := by
  decide

/-- C10 amended: cursor-move events change only the moving participant's
cursor field, drawing start/end change only its `isDrawing` flag — id, name
and color are untouched, other participants and the canvas state are
untouched, and other rooms are untouched — canvas updates leave the user map
unchanged and resync changes nothing; only a repeated join replaces a
participant's record. -/
theorem C10_cursor_drawing_frame (st : ServerState) (sid rid : String)
    (room : Room) (user : User)
    (hr : alookup st rid = some room)
    (hu : alookup room.users sid = some user) :
    (∀ x y, ∃ room',
       alookup (cursor_move st sid rid x y).1 rid = some room' ∧
       alookup room'.users sid = some { user with cursor := some (x, y) } ∧
       (∀ sid', sid' ≠ sid →
          alookup room'.users sid' = alookup room.users sid') ∧
       room'.canvasState = room.canvasState ∧
       room'.lastUpdate = room.lastUpdate ∧
       (∀ rid', rid' ≠ rid →
          alookup (cursor_move st sid rid x y).1 rid' = alookup st rid')) ∧
    (∃ room',
       alookup (drawing_start st sid rid).1 rid = some room' ∧
       alookup room'.users sid = some { user with isDrawing := true } ∧
       (∀ sid', sid' ≠ sid →
          alookup room'.users sid' = alookup room.users sid') ∧
       room'.canvasState = room.canvasState) ∧
    (∃ room',
       alookup (drawing_end st sid rid).1 rid = some room' ∧
       alookup room'.users sid = some { user with isDrawing := false } ∧
       (∀ sid', sid' ≠ sid →
          alookup room'.users sid' = alookup room.users sid') ∧
       room'.canvasState = room.canvasState) ∧
    (∀ els ts, ∃ room',
       alookup (canvas_update st sid rid els ts).1 rid = some room' ∧
       room'.users = room.users) ∧
    ((request_sync st sid rid).1 = st) := by
  refine ⟨?_, ?_, ?_, ?_, ?_⟩
  · intro x y
    have h1 : (cursor_move st sid rid x y).1 =
        mapSet st rid
          ({ room with
             users := mapSet room.users sid ({ user with cursor := some (x, y) }) }) := by
      simp [cursor_move, hr, hu]
    refine
      ⟨({ room with
          users := mapSet room.users sid ({ user with cursor := some (x, y) }) }),
       ?_, ?_, ?_, rfl, rfl, ?_⟩
    · rw [h1]
      exact alookup_mapSet_self _ _ _
    · exact alookup_mapSet_self _ _ _
    · intro sid' hs
      exact alookup_mapSet_other _ _ _ _ (fun hh => hs hh.symm)
    · intro rid' hrne
      rw [h1]
      exact alookup_mapSet_other _ _ _ _ (fun hh => hrne hh.symm)
  · have h1 : (drawing_start st sid rid).1 =
        mapSet st rid
          ({ room with
             users := mapSet room.users sid ({ user with isDrawing := true }) }) := by
      simp [drawing_start, hr, hu]
    refine
      ⟨({ room with
          users := mapSet room.users sid ({ user with isDrawing := true }) }),
       ?_, ?_, ?_, rfl⟩
    · rw [h1]
      exact alookup_mapSet_self _ _ _
    · exact alookup_mapSet_self _ _ _
    · intro sid' hs
      exact alookup_mapSet_other _ _ _ _ (fun hh => hs hh.symm)
  · have h1 : (drawing_end st sid rid).1 =
        mapSet st rid
          ({ room with
             users := mapSet room.users sid ({ user with isDrawing := false }) }) := by
      simp [drawing_end, hr, hu]
    refine
      ⟨({ room with
          users := mapSet room.users sid ({ user with isDrawing := false }) }),
       ?_, ?_, ?_, rfl⟩
    · rw [h1]
      exact alookup_mapSet_self _ _ _
    · exact alookup_mapSet_self _ _ _
    · intro sid' hs
      exact alookup_mapSet_other _ _ _ _ (fun hh => hs hh.symm)
  · intro els ts
    refine ⟨{ room with canvasState := els, lastUpdate := ts }, ?_, rfl⟩
    simp only [canvas_update, hr]
    exact alookup_mapSet_self _ _ _
  · simp [request_sync, hr]

/-- Witness for C10's amended frame conditions at a concrete one-user room. -/
theorem C10_cursor_drawing_frame_witness :
    (∃ room',
       alookup (cursor_move [("R", roomWithUsers [("a", mkTestUser "a")])]
          "a" "R" 3 4).1 "R" = some room' ∧
       alookup room'.users "a" =
         some { mkTestUser "a" with cursor := some (3, 4) } ∧
       (∀ sid', sid' ≠ "a" → alookup room'.users sid' =
          alookup (roomWithUsers [("a", mkTestUser "a")]).users sid') ∧
       room'.canvasState = (roomWithUsers [("a", mkTestUser "a")]).canvasState ∧
       room'.lastUpdate = (roomWithUsers [("a", mkTestUser "a")]).lastUpdate ∧
       (∀ rid', rid' ≠ "R" →
          alookup (cursor_move [("R", roomWithUsers [("a", mkTestUser "a")])]
            "a" "R" 3 4).1 rid' =
          alookup [("R", roomWithUsers [("a", mkTestUser "a")])] rid')) ∧
    ((request_sync [("R", roomWithUsers [("a", mkTestUser "a")])]
        "a" "R").1 = [("R", roomWithUsers [("a", mkTestUser "a")])]) :=
  ⟨(C10_cursor_drawing_frame [("R", roomWithUsers [("a", mkTestUser "a")])]
      "a" "R" (roomWithUsers [("a", mkTestUser "a")]) (mkTestUser "a")
      (by decide) (by decide)).1 3 4,
   (C10_cursor_drawing_frame [("R", roomWithUsers [("a", mkTestUser "a")])]
      "a" "R" (roomWithUsers [("a", mkTestUser "a")]) (mkTestUser "a")
      (by decide) (by decide)).2.2.2.2⟩

/-- C7 counterexample: the engine keeps no per-connection protocol state —
socket "b", which is not a participant of the existing room "R1", sends a
canvas replace for "R1" and the store is mutated and the mutation broadcast;
and socket "a", already joined in "R1", becomes a participant of "R2" as
well via a later join. -/
theorem C7_no_state_enforcement_counterexample :
    ((alookup exSt1 "R1").map (fun r => (alookup r.users "b").isSome) =
      some false) ∧
    ((alookup (canvas_update exSt1 "b" "R1" ["e1"] 5).1 "R1").map
        Room.canvasState = some ["e1"]) ∧
    ((canvas_update exSt1 "b" "R1" ["e1"] 5).2 ≠ []) ∧
    ((alookup exSt3 "R1").map (fun r => (alookup r.users "a").isSome) =
      some true) ∧
    ((alookup exSt3 "R2").map (fun r => (alookup r.users "a").isSome) =
      some true) := by
  decide

/-- C7 amended: events naming a nonexistent session are ignored (state
unchanged, nothing emitted), but existence of the session is the only check:
a canvas mutation from any socket — participant or not — overwrites the
referenced room's state, and a join succeeds for any socket whatever rooms it
already belongs to, so the Unjoined/Joined protocol is not enforced. -/
theorem C7_amended_session_existence_only (st : ServerState)
    (sid rid : String) (els : List Elem) (ts : Int) (uname : String) :
    (alookup st rid = none → canvas_update st sid rid els ts = (st, [])) ∧
    (∀ room, alookup st rid = some room →
       (alookup (canvas_update st sid rid els ts).1 rid).map
         Room.canvasState = some els) ∧
    (∀ room, alookup st rid = some room → room.users.length < 10 →
       (alookup (join_room st sid rid uname).1 rid).map
           (fun r => (alookup r.users sid).isSome) = some true) := by
  refine ⟨?_, ?_, ?_⟩
  · intro h
    simp [canvas_update, h]
  · intro room h
    simp only [canvas_update, h]
    simp [alookup_mapSet_self]
  · intro room h hcap
    simp only [join_room, h]
    rw [if_neg (by omega)]
    simp [alookup_mapSet_self]

/-- Witness for C7's amended statement: a canvas update naming a missing room
is dropped; on `exSt1` a non-member's canvas update lands, and the
already-joined "a" can join "R1" again successfully. -/
theorem C7_amended_session_existence_only_witness :
    (canvas_update [] "b" "R1" ["e1"] 5 = ([], [])) ∧
    ((alookup (canvas_update exSt1 "b" "R1" ["e1"] 5).1 "R1").map
        Room.canvasState = some ["e1"]) ∧
    ((alookup (join_room exSt1 "a" "R1" "Alice").1 "R1").map
        (fun r => (alookup r.users "a").isSome) = some true) :=
  ⟨(C7_amended_session_existence_only [] "b" "R1" ["e1"] 5 "x").1 (by decide),
   (C7_amended_session_existence_only exSt1 "b" "R1" ["e1"] 5 "x").2.1
     exRoom1 (by decide),
   (C7_amended_session_existence_only exSt1 "a" "R1" ["e1"] 5 "Alice").2.2
     exRoom1 (by decide) (by decide)⟩

/-- C3: on every reachable state no retained room has zero users; when a
socket that belongs to exactly one room disconnects it is removed — it is a
member of no room afterwards — and if it was that room's only user the room
is destroyed immediately, so that a subsequent join naming that room id
receives the not-found error reply. -/
theorem C3_disconnect_destroys_empty (st : ServerState) (sid rid : String)
    (room : Room) (hreach : Reachable st)
    (hroom : alookup st rid = some room)
    (hmem : (alookup room.users sid).isSome)
    (honly : ∀ p ∈ st, (alookup p.2.users sid).isSome → p.1 = rid) :
    (∀ p ∈ st, p.2.users ≠ []) ∧
    (∀ rid' room', alookup (disconnect st sid).1 rid' = some room' →
       alookup room'.users sid = none) ∧
    (room.users.length = 1 →
       alookup (disconnect st sid).1 rid = none ∧
       ∀ sid2 uname2,
         join_room (disconnect st sid).1 sid2 rid uname2 =
           ((disconnect st sid).1,
            [.toSender (.roomError "Room not found")])) := by
  have hwf := reachable_wf st hreach
  have hd := disconnect_removes sid rid room st hwf.1 hroom hmem honly
  refine ⟨hwf.2, hd.1, ?_⟩
  intro h1
  have hdel0 : mapDelete room.users sid = [] :=
    mapDelete_of_singleton room.users sid hmem h1
  have hlen : (mapDelete room.users sid).length = 0 := by
    rw [hdel0]
    rfl
  have hnone := hd.2.1 hlen
  refine ⟨hnone, ?_⟩
  intro sid2 uname2
  simp [join_room, hnone]

/-- Witness for C3: "a" creates "R1" and disconnects; the room is destroyed
and a subsequent join to "R1" gets the not-found error. -/
theorem C3_disconnect_destroys_empty_witness :
    (∀ p ∈ exSt1, p.2.users ≠ []) ∧
    (∀ rid' room', alookup (disconnect exSt1 "a").1 rid' = some room' →
       alookup room'.users "a" = none) ∧
    (alookup (disconnect exSt1 "a").1 "R1" = none ∧
     ∀ sid2 uname2,
       join_room (disconnect exSt1 "a").1 sid2 "R1" uname2 =
         ((disconnect exSt1 "a").1,
          [.toSender (.roomError "Room not found")])) :=
  ⟨(C3_disconnect_destroys_empty exSt1 "a" "R1" exRoom1
      (Reachable.step [] (Event.createRoom "a" "Alice" "R1" 0) Reachable.init)
      (by decide) (by decide) (by decide)).1,
   (C3_disconnect_destroys_empty exSt1 "a" "R1" exRoom1
      (Reachable.step [] (Event.createRoom "a" "Alice" "R1" 0) Reachable.init)
      (by decide) (by decide) (by decide)).2.1,
   (C3_disconnect_destroys_empty exSt1 "a" "R1" exRoom1
      (Reachable.step [] (Event.createRoom "a" "Alice" "R1" 0) Reachable.init)
      (by decide) (by decide) (by decide)).2.2 (by decide)⟩
